import Mathlib

/-!
# ratify-containerd: scope aggregation (monitor) and the verification gate (verifier)

A shallow embedding of

* `pkg/models/config.go`  (`ScopedConfig`, `ScopedConfigOptimized`, `ToOptimizedFromScopes`,
  `HasScope`),
* `pkg/shared/constants.go`,
* `cmd/verifier/cmd.go`   (`isRepositoryInScope`, `executeRatifyVerify`, `main`, with the
  standard library's `flag.Parse` on the three string flags registered by `init`),
* `cmd/monitor/cmd.go`    (`processConfigMaps`, `writeConfigMapsToSharedVolume`, ...).

Conventions of the embedding.

* A Go `map[string]V` is a finite map with pairwise distinct keys (`AList`), a `nil` map is the
  empty one.  Go visits the keys of a map in an unspecified order; every `range` loop over a map
  in these files either computes an existential with `break` or feeds a set, so the order of the
  underlying list is not observable in the results below.
* A Go function returning `(T, error)` returns `Except String T`; a function returning only
  `error` returns `Except String Unit`.
* Everything the programs obtain from outside (the Kubernetes client, the file system, the
  clock, `encoding/json`, the oras reference parser, the ratify subprocess) is an explicit
  field of an environment record and is never inspected by the model.
* The package level variables `lastConfigMapNames` / `lastConfigMapVersions` of the monitor are
  threaded through `processConfigMaps` as an explicit `AggregatorState`.
* Loop variables have per-iteration scope (Go 1.22 and later), so `&cm` in the listing loop
  denotes the element of that iteration.
-/

namespace Ratify

/-! ## Go maps -/

/-- A Go `map[string]V`. -/
abbrev GoMap (V : Type) := AList (fun _ : String => V)

namespace GoMap

variable {V : Type}

/-- Go `len(m)`: the number of keys. -/
def len (m : GoMap V) : Nat := m.entries.length

/-- Go `m[k] = v`. -/
def set (m : GoMap V) (k : String) (v : V) : GoMap V := AList.insert k v m

/-- Go `v, ok := m[k]`. -/
def lookup (m : GoMap V) (k : String) : Option V := AList.lookup k m

/-- Go `_, ok := m[k]`. -/
def has (m : GoMap V) (k : String) : Bool := (m.lookup k).isSome

/-- Go `m[k]`, which is the zero value of `V` when `k` is not a key. -/
def getD (m : GoMap V) (k : String) (zero : V) : V := (m.lookup k).getD zero

end GoMap

/-- Go `strings.HasPrefix(s, p)`. -/
def HasPrefix (s p : String) : Bool := p.toList.isPrefixOf s.toList

/-- A `time.Time`, as an instant on some fixed scale. -/
abbrev Time := Int

/-! ## `pkg/shared/constants.go` -/

namespace shared

def SharedVolumePath : String := "/shared-data"
def SharedVolumeMountPath : String := "/var"
def ScopedConfigFileName : String := "ratify-config.json"
def RatifyConfigPath : String := "/root/.ratify/bin/config.json"
def RatifyBinPath : String := "/root/.ratify/bin/ratify"
def DefaultHomeDir : String := "/root"

end shared

/-- Go `filepath.Join` on already clean, non-empty elements of which only the first may start with
a separator (the later ones here start with at most one, which `Clean` collapses). -/
def filepathJoin : List String → String
  | [] => ""
  | a :: rest => rest.foldl (fun acc b => acc ++ (if HasPrefix b "/" then "" else "/") ++ b) a

/-! ## `pkg/models/config.go` -/

namespace models

/-- Type `ScopedConfig`: the declaration carried by one ConfigMap payload. -/
structure ScopedConfig where
  Version : String
  Scopes : List String
  LastUpdated : Time

/-- Type `ScopedConfigOptimized`: the published snapshot. -/
structure ScopedConfigOptimized where
  ScopeMap : GoMap Bool
  LastUpdated : Time

/-- Method `(sc *ScopedConfig).ToOptimized`. -/
def ScopedConfig.ToOptimized (sc : ScopedConfig) : ScopedConfigOptimized :=
  { ScopeMap := sc.Scopes.foldl (fun scopeMap scope => scopeMap.set scope true) ∅
    LastUpdated := sc.LastUpdated }

/-- Function `ToOptimizedFromScopes`; `now` is the value of `time.Now().UTC()`. -/
def ToOptimizedFromScopes (scopes : List String) (now : Time) : ScopedConfigOptimized :=
  { ScopeMap := scopes.foldl (fun scopeMap scope => scopeMap.set scope true) ∅
    LastUpdated := now }

/-- Method `(sco *ScopedConfigOptimized).HasScope`: `return sco.ScopeMap[scope]`. -/
def ScopedConfigOptimized.HasScope (sco : ScopedConfigOptimized) (scope : String) : Bool :=
  sco.ScopeMap.getD scope false

end models

open models

/-! ## `cmd/verifier/cmd.go` -/

namespace verifier

/-- What `os.Stat` reports about a path: success, an error for which `os.IsNotExist` holds, or
any other error. -/
inductive StatResult where
  | ok
  | notExist
  | failed (msg : String)
  deriving DecidableEq, Repr

/-- A `registry.Reference` of oras. -/
structure Reference where
  Registry : String
  Repository : String
  Reference : String

/-- The outcome of `cmd.Output()`: a zero exit with the captured standard output, an
`*exec.ExitError` carrying the captured standard error, or any other error (the command could
not be started, a pipe failed). -/
inductive CmdResult where
  | ok (stdout : String)
  | exitError (stdout stderr msg : String)
  | otherError (stdout msg : String)

/-- Type `RatifyOutput`; `Result` is kept as the raw payload. -/
structure RatifyOutput where
  IsSuccess : Bool
  Result : Option String
  Error : String

/-- Everything one run of the verifier obtains from outside. -/
structure Env where
  /-- Call `os.Stat(path)` -/
  stat : String → StatResult
  /-- Call `os.ReadFile(path)` -/
  readFile : String → Except String String
  /-- Call `json.Unmarshal(data, &config)` for a `models.ScopedConfigOptimized` -/
  unmarshalScopedConfigOptimized : String → Except String ScopedConfigOptimized
  /-- Call `registry.ParseReference(name)` -/
  parseReference : String → Except String Reference
  /-- Call `ref.String()` -/
  referenceString : Reference → String
  /-- Call `exec.Command(bin, args...)` with the extra environment entry, then `cmd.Output()` -/
  runCommand : String → List String → String → CmdResult
  /-- Call `json.Unmarshal([]byte(ratifyOutput), &output)` for a `RatifyOutput` -/
  unmarshalRatifyOutput : String → Except String RatifyOutput

/-- The path `isRepositoryInScope` reads:
`filepath.Join(SharedVolumeMountPath, SharedVolumePath, ScopedConfigFileName)`. -/
def configFilePath : String :=
  filepathJoin [shared.SharedVolumeMountPath, shared.SharedVolumePath, shared.ScopedConfigFileName]

/-- Function `isRepositoryInScope`. -/
def isRepositoryInScope (env : Env) (repository : String) : Except String Bool :=
  match env.stat configFilePath with
  | .notExist => .ok true
  | .failed msg => .error ("failed to check scoped config file: " ++ msg)
  | .ok =>
    match env.readFile configFilePath with
    | .error msg => .error ("failed to read scoped config file: " ++ msg)
    | .ok data =>
      match env.unmarshalScopedConfigOptimized data with
      | .error msg => .error ("failed to parse scoped config JSON: " ++ msg)
      | .ok config => .ok (config.HasScope repository)

/-- Function `executeRatifyVerify`. -/
def executeRatifyVerify (env : Env) (name digest : String) : Except String String :=
  let configPath := shared.RatifyConfigPath
  let ratifyBin := shared.RatifyBinPath
  let args := ["verify", "-c", configPath, "-s", name, "--digest", digest]
  match env.runCommand ratifyBin args ("HOME=" ++ shared.DefaultHomeDir) with
  | .ok output => .ok output
  | .exitError output stderr msg =>
    let combined := output ++ stderr
    if combined.length > 0 then .ok combined
    else .error ("ratify command failed: " ++ msg)
  | .otherError _ msg => .error ("ratify command failed: " ++ msg)

/-- The flag variables `name`, `digest` and `stdinMediaType` that `init` registers as the string
flags `-name`, `-digest` and `-stdin-media-type`. -/
structure Flags where
  name : String
  digest : String
  stdinMediaType : String
  deriving DecidableEq, Repr

/-- The values of the flag variables before `flag.Parse()`: the defaults given in `init`. -/
def defaultFlags : Flags := ⟨"", "", ""⟩

/-- What the standard library's `FlagSet.parseOne` makes of one command line argument: not a
flag (fewer than two bytes, no leading `-`, or the terminator `--`), so parsing stops; bad
flag syntax; or a flag name with the value given after `=`, if any. -/
inductive FlagArg where
  | stop
  | bad
  | flag (name : String) (value : Option String)
  deriving DecidableEq, Repr

/-- The part of `parseOne` that follows the removal of the leading minus signs: an empty name
or one starting with `-` or `=` is bad syntax; otherwise the name ends at the first `=` after
its first character and the value is what follows that `=`. -/
def splitFlag : List Char → FlagArg
  | [] => .bad
  | c :: cs =>
    if c = '-' ∨ c = '=' then .bad
    else
      match cs.dropWhile (fun x => x != '=') with
      | [] => .flag (String.mk (c :: cs)) none
      | _ :: value => .flag (String.mk (c :: cs.takeWhile (fun x => x != '='))) (some (String.mk value))

/-- The first half of `parseOne`. -/
def classifyArg (s : String) : FlagArg :=
  match s.toList with
  | '-' :: '-' :: [] => .stop
  | '-' :: '-' :: cs => splitFlag cs
  | '-' :: c :: cs => splitFlag (c :: cs)
  | _ => .stop

/-- The outcome of `flag.Parse()` on `flag.CommandLine`, whose error handling is
`ExitOnError`: the flag variables, or the code passed to `os.Exit`. -/
inductive FlagParse where
  | parsed (flags : Flags)
  | exit (code : Nat)
  deriving DecidableEq, Repr

/-- The lookup `f.formal[name]`: the three flags registered by `init`. -/
def registered (name : String) : Bool :=
  name = "name" || name = "digest" || name = "stdin-media-type"

/-- The assignment `flag.Value.Set(value)` for a registered string flag. -/
def setFlag (flags : Flags) (name value : String) : Flags :=
  if name = "name" then { flags with name := value }
  else if name = "digest" then { flags with digest := value }
  else if name = "stdin-media-type" then { flags with stdinMediaType := value }
  else flags

/-- The result of one `parseOne`: parsing ends with an outcome, or a flag was seen and set,
taking its value from the next argument or not. -/
inductive FlagStep where
  | finish (outcome : FlagParse)
  | seen (tookNext : Bool) (flags : Flags)

/-- Function `FlagSet.parseOne` with the `ExitOnError` handling of `FlagSet.Parse`, on the
first argument `s` and the argument after it, if any: a flag that is not registered exits
with 0 when it is `-h` or `-help` and with 2 otherwise; a registered flag takes its value from
after `=` or else from the next argument, and exits with 2 when there is none; bad syntax
exits with 2; an argument that is not a flag ends the parsing. -/
def parseOne (s : String) (next : Option String) (flags : Flags) : FlagStep :=
  match classifyArg s with
  | .stop => .finish (.parsed flags)
  | .bad => .finish (.exit 2)
  | .flag name value =>
    if !registered name then
      if name = "help" ∨ name = "h" then .finish (.exit 0) else .finish (.exit 2)
    else
      match value, next with
      | some v, _ => .seen false (setFlag flags name v)
      | none, some v => .seen true (setFlag flags name v)
      | none, none => .finish (.exit 2)

/-- The loop of `FlagSet.Parse` over `os.Args[1:]`. -/
def flagParse : List String → Flags → FlagParse
  | [], flags => .parsed flags
  | [s], flags =>
    match parseOne s none flags with
    | .finish outcome => outcome
    | .seen _ flags => .parsed flags
  | s :: v :: rest, flags =>
    match parseOne s (some v) flags with
    | .finish outcome => outcome
    | .seen false flags => flagParse (v :: rest) flags
    | .seen true flags => flagParse rest flags

/-- What one run of `main` does that is visible from outside: the code passed to `os.Exit` and
whether `executeRatifyVerify` was called. -/
structure Run where
  exitCode : Nat
  engineInvoked : Bool
  deriving DecidableEq, Repr

/-- Function `main`, on the command line arguments `os.Args[1:]`. -/
def main (env : Env) (args : List String) : Run :=
  match flagParse args defaultFlags with
  | .exit code => ⟨code, false⟩
  | .parsed flags =>
    let name := flags.name
    let digest := flags.digest
    if name = "" then ⟨1, false⟩
    else if digest = "" then ⟨1, false⟩
    else
      match env.parseReference name with
      | .error _ => ⟨1, false⟩
      | .ok ref =>
        let ref := { ref with Reference := "" }
        match isRepositoryInScope env (env.referenceString ref) with
        | .error _ => ⟨1, false⟩
        | .ok false => ⟨0, false⟩
        | .ok true =>
          if env.stat shared.RatifyConfigPath = .notExist then ⟨0, false⟩
          else
            match executeRatifyVerify env name digest with
            | .error _ => ⟨1, true⟩
            | .ok ratifyOutput =>
              match env.unmarshalRatifyOutput ratifyOutput with
              | .error _ => ⟨1, true⟩
              | .ok output => if output.IsSuccess then ⟨0, true⟩ else ⟨1, true⟩

end verifier

/-! ## `cmd/monitor/cmd.go` -/

namespace monitor

/-- Prefix of ConfigMap names to watch. -/
def configMapPrefix : String := "scoped-config-"

/-- Namespace to watch ConfigMaps in. -/
def namespaceName : String := "default"

/-- The fields of a `corev1.ConfigMap` the monitor reads. -/
structure ConfigMap where
  Name : String
  ResourceVersion : String
  Data : GoMap String

/-- Everything one cycle of the monitor obtains from outside. -/
structure World where
  /-- Call `clientset.CoreV1().ConfigMaps(namespace).List(...)`, the `Items` on success -/
  listConfigMaps : String → Except String (List ConfigMap)
  /-- Call `json.Unmarshal([]byte(value), &config)` for a `models.ScopedConfig` -/
  unmarshalScopedConfig : String → Except String ScopedConfig
  /-- Call `time.Now().UTC()` -/
  now : Time
  /-- Call `json.MarshalIndent(optimizedConfig, "", "  ")` -/
  marshalIndent : ScopedConfigOptimized → Except String String
  /-- Call `filepath.Glob(pattern)` -/
  glob : String → Except String (List String)
  /-- Call `os.MkdirAll(filepath.Dir(filePath), 0755)`, by `filePath` -/
  mkdirAllDir : String → Except String Unit
  /-- Call `os.WriteFile(filePath, contents, 0644)` -/
  osWriteFile : String → String → Except String Unit
  /-- Call `os.Rename(from, to)` -/
  osRename : String → String → Except String Unit

/-- The state tracking variables `lastConfigMapNames` and `lastConfigMapVersions`. -/
structure AggregatorState where
  lastConfigMapNames : GoMap Unit
  lastConfigMapVersions : GoMap String

/-- The values the two variables are initialised with: `make(map...)`, twice. -/
def initialState : AggregatorState := ⟨∅, ∅⟩

/-- Function `writeFile`. -/
def writeFile (w : World) (filePath contents : String) : Except String Unit :=
  match w.mkdirAllDir filePath with
  | .error err => .error err
  | .ok _ =>
    match w.osWriteFile filePath contents with
    | .error err => .error err
    | .ok _ => .ok ()

/-- Function `cleanupTempFiles`: only a failing glob is an error; the removal of each file
found is logged whether it fails or not. -/
def cleanupTempFiles (w : World) (dirPath : String) : Except String Unit :=
  match w.glob (filepathJoin [dirPath, "*.tmp"]) with
  | .error err => .error ("failed to glob temp files: " ++ err)
  | .ok _ => .ok ()

/-- Function `writeConfigToSharedVolume`: a failing cleanup is logged and otherwise ignored,
and so is the removal of the temporary file after a failing rename. -/
def writeConfigToSharedVolume (w : World) (configJSON : String) : Except String Unit :=
  let _cleanup := cleanupTempFiles w shared.SharedVolumePath
  let tempFilePath :=
    filepathJoin [shared.SharedVolumePath, shared.ScopedConfigFileName ++ ".tmp"]
  match writeFile w tempFilePath configJSON with
  | .error err => .error ("failed to write to temp file: " ++ err)
  | .ok _ =>
    let configMapPath := filepathJoin [shared.SharedVolumePath, shared.ScopedConfigFileName]
    match w.osRename tempFilePath configMapPath with
    | .error err => .error ("failed to rename temp file to final file: " ++ err)
    | .ok _ => .ok ()

/-- The two nested loops of `writeConfigMapsToSharedVolume` that build `allScopes`: a payload
that does not parse is skipped, the scopes of one that parses are appended. -/
def collectScopes (w : World) (configMaps : List ConfigMap) : List String :=
  configMaps.foldl
    (fun allScopes cm =>
      cm.Data.entries.foldl
        (fun allScopes kv =>
          match w.unmarshalScopedConfig kv.2 with
          | .error _ => allScopes
          | .ok config => allScopes ++ config.Scopes)
        allScopes)
    []

/-- Function `writeConfigMapsToSharedVolume`. -/
def writeConfigMapsToSharedVolume (w : World) (configMaps : List ConfigMap) :
    Except String Unit :=
  let allScopes := collectScopes w configMaps
  let optimizedConfig := ToOptimizedFromScopes allScopes w.now
  match w.marshalIndent optimizedConfig with
  | .error err => .error ("failed to marshal combined config to JSON: " ++ err)
  | .ok configJSON =>
    match writeConfigToSharedVolume w configJSON with
    | .error err => .error ("failed to write config to shared volume: " ++ err)
    | .ok _ => .ok ()

/-- The three accumulators of the listing loop of `processConfigMaps`. -/
structure Scan where
  currentNames : GoMap Unit
  currentVersions : GoMap String
  scopedConfigMaps : List ConfigMap

/-- The listing loop of `processConfigMaps`. -/
def scan (items : List ConfigMap) : Scan :=
  items.foldl
    (fun acc cm =>
      if HasPrefix cm.Name configMapPrefix then
        { currentNames := acc.currentNames.set cm.Name ()
          currentVersions := acc.currentVersions.set cm.Name cm.ResourceVersion
          scopedConfigMaps := acc.scopedConfigMaps ++ [cm] }
      else acc)
    ⟨∅, ∅, []⟩

/-- The block "detect added/removed ConfigMaps" of `processConfigMaps`. -/
def nameChanged (currentNames lastConfigMapNames : GoMap Unit) : Bool :=
  if currentNames.len != lastConfigMapNames.len then true
  else currentNames.keys.any (fun name => !lastConfigMapNames.has name)

/-- The block "detect content changes if names didn't change" of `processConfigMaps`. -/
def contentChanged (nameChanged : Bool) (currentVersions lastConfigMapVersions : GoMap String) :
    Bool :=
  if !nameChanged then
    currentVersions.entries.any
      (fun nv => lastConfigMapVersions.getD nv.1 "" != nv.2)
  else false

/-- What one call of `processConfigMaps` leaves behind: the returned error (`none` for `nil`),
the state variables, and the result of the call of `writeConfigMapsToSharedVolume` (`none`
when it was not called). -/
structure CycleResult where
  err : Option String
  state : AggregatorState
  publish : Option (Except String Unit)

/-- Function `processConfigMaps`. -/
def processConfigMaps (w : World) (st : AggregatorState) : CycleResult :=
  match w.listConfigMaps namespaceName with
  | .error err => ⟨some ("failed to list ConfigMaps: " ++ err), st, none⟩
  | .ok items =>
    let s := scan items
    let nameChanged := nameChanged s.currentNames st.lastConfigMapNames
    let contentChanged := contentChanged nameChanged s.currentVersions st.lastConfigMapVersions
    if nameChanged || contentChanged then
      match writeConfigMapsToSharedVolume w s.scopedConfigMaps with
      | .error err =>
        ⟨some ("failed to write ConfigMaps to shared volume: " ++ err), st, some (.error err)⟩
      | .ok _ => ⟨none, ⟨s.currentNames, s.currentVersions⟩, some (.ok ())⟩
    else ⟨none, st, none⟩

end monitor

/-! ## Concrete scenarios -/

namespace verifier

/-- The published snapshot with the single scope `registry.io/app`. -/
def appSnapshot : ScopedConfigOptimized :=
  { ScopeMap := (∅ : GoMap Bool).set "registry.io/app" true, LastUpdated := 0 }

/-- A snapshot file that parses and lists `registry.io/app` with the value `false`. -/
def falseSnapshot : ScopedConfigOptimized :=
  { ScopeMap := (∅ : GoMap Bool).set "registry.io/app" false, LastUpdated := 0 }

/-- A host on which the snapshot path and the ratify configuration path have the given status,
the snapshot file decodes to `snapshot`, the engine run ends with `engine`, and its captured
output decodes to `verdict`.  Image names are split at the last colon by a table. -/
def hostWith (snapshotStat : StatResult) (snapshot : Except String ScopedConfigOptimized)
    (ratifyConfig : StatResult) (engine : CmdResult) (verdict : Except String RatifyOutput) :
    Env :=
  { stat := fun path =>
      if path = configFilePath then snapshotStat
      else if path = shared.RatifyConfigPath then ratifyConfig
      else .notExist
    readFile := fun path =>
      if path = configFilePath then .ok "snapshot file contents" else .error "no such file"
    unmarshalScopedConfigOptimized := fun _ => snapshot
    parseReference := fun name =>
      if name = "registry.io/app:v1" then .ok ⟨"registry.io", "app", "v1"⟩
      else if name = "registry.io/app2:v1" then .ok ⟨"registry.io", "app2", "v1"⟩
      else .error "invalid reference"
    referenceString := fun ref =>
      if ref.Repository = "" then ref.Registry
      else if ref.Reference = "" then ref.Registry ++ "/" ++ ref.Repository
      else ref.Registry ++ "/" ++ ref.Repository ++ ":" ++ ref.Reference
    runCommand := fun _ _ _ => engine
    unmarshalRatifyOutput := fun _ => verdict }

/-- A host without a snapshot file. -/
def hostWithoutSnapshot : Env :=
  hostWith .notExist (.error "unused") .ok (.ok "engine output") (.ok ⟨true, none, ""⟩)

/-- A host whose snapshot file exists and does not parse. -/
def hostWithCorruptSnapshot : Env :=
  hostWith .ok (.error "unexpected end of JSON input") .ok (.ok "engine output")
    (.ok ⟨true, none, ""⟩)

/-- A host with the snapshot `snapshot` on which ratify runs and reports a failed
verification on standard output with a non-zero exit code. -/
def hostWithFailingVerification (snapshot : ScopedConfigOptimized) : Env :=
  hostWith .ok (.ok snapshot) .ok (.exitError "engine output" "" "exit status 1")
    (.ok ⟨false, none, "signature missing"⟩)

/-- A host with the snapshot `snapshot` on which the ratify binary cannot be started. -/
def hostWithoutEngine (snapshot : ScopedConfigOptimized) : Env :=
  hostWith .ok (.ok snapshot) .ok (.otherError "" "fork/exec: no such file or directory")
    (.ok ⟨true, none, ""⟩)

/-- A host whose snapshot file decodes to `snapshot`, with ratify configured and succeeding. -/
def hostWithSnapshot (snapshot : ScopedConfigOptimized) : Env :=
  hostWith .ok (.ok snapshot) .ok (.ok "engine output") (.ok ⟨true, none, ""⟩)

end verifier

namespace monitor

/-- The payload `{"scopes":["a","b"]}`. -/
def payloadAB : String := "\x7b\"scopes\":[\"a\",\"b\"]\x7d"

/-- The payload `{"scopes":["b","c"]}`. -/
def payloadBC : String := "\x7b\"scopes\":[\"b\",\"c\"]\x7d"

/-- A ConfigMap carrying the prefix, declaring the scopes `a` and `b`. -/
def cmA : ConfigMap := ⟨"scoped-config-a", "1", (∅ : GoMap String).set "k" payloadAB⟩

/-- The object `cmA` after an update: the same name, a new version token. -/
def cmA2 : ConfigMap := ⟨"scoped-config-a", "2", (∅ : GoMap String).set "k" payloadAB⟩

/-- A second ConfigMap carrying the prefix, declaring the scopes `b` and `c`. -/
def cmB : ConfigMap := ⟨"scoped-config-b", "7", (∅ : GoMap String).set "k" payloadBC⟩

/-- A ConfigMap of the namespace that does not carry the prefix. -/
def cmOther : ConfigMap := ⟨"kube-root-ca.crt", "3", (∅ : GoMap String).set "ca.crt" "PEM"⟩

/-- A cluster whose listing call returns `listing` and a shared volume on which the final
rename ends with `rename`; the two payloads above decode, anything else does not. -/
def clusterWith (listing : Except String (List ConfigMap)) (rename : Except String Unit) :
    World :=
  { listConfigMaps := fun _ => listing
    unmarshalScopedConfig := fun value =>
      if value = payloadAB then .ok ⟨"", ["a", "b"], 0⟩
      else if value = payloadBC then .ok ⟨"", ["b", "c"], 0⟩
      else .error "invalid character"
    now := 0
    marshalIndent := fun _ => .ok "snapshot file contents"
    glob := fun _ => .ok []
    mkdirAllDir := fun _ => .ok ()
    osWriteFile := fun _ _ => .ok ()
    osRename := fun _ _ => rename }

/-- The state a monitor is left in by its first cycle when the listing is `[cmA]` and the
publish succeeds. -/
def stateAfterA : AggregatorState :=
  (processConfigMaps (clusterWith (.ok [cmA]) (.ok ())) initialState).state

end monitor

/-! ## Facts about Go maps -/

namespace GoMap

variable {V : Type}

theorem mem_set (m : GoMap V) (k : String) (v : V) (n : String) :
    n ∈ m.set k v ↔ n = k ∨ n ∈ m := by
  unfold set
  exact AList.mem_insert m

theorem lookup_set_self (m : GoMap V) (k : String) (v : V) : (m.set k v).lookup k = some v := by
  unfold lookup set
  exact AList.lookup_insert m

theorem lookup_set_ne (m : GoMap V) (k : String) (v : V) (n : String) (h : n ≠ k) :
    (m.set k v).lookup n = m.lookup n := by
  unfold lookup set
  exact AList.lookup_insert_ne h

theorem lookup_set (m : GoMap V) (k : String) (v : V) (n : String) :
    (m.set k v).lookup n = if n = k then some v else m.lookup n := by
  by_cases h : n = k
  · subst h
    simp [lookup_set_self]
  · simp [h, lookup_set_ne m k v n h]

theorem lookup_empty (n : String) : (∅ : GoMap V).lookup n = none := by
  unfold lookup
  exact AList.lookup_empty n

theorem keys_set (m : GoMap V) (k : String) (v : V) :
    (m.set k v).keys = k :: m.keys.erase k := by
  unfold set
  exact AList.keys_insert m

theorem has_iff (m : GoMap V) (k : String) : m.has k = true ↔ k ∈ m := by
  unfold has lookup
  exact AList.lookup_isSome

theorem lookup_eq_none_iff (m : GoMap V) (k : String) : m.lookup k = none ↔ k ∉ m := by
  unfold lookup
  exact AList.lookup_eq_none

theorem len_eq_keys_length (m : GoMap V) : m.len = m.keys.length := by
  unfold len AList.keys List.keys
  simp

/-- Two maps with the same keys have the same `len`. -/
theorem len_congr {W : Type} (m : GoMap V) (m' : GoMap W) (h : ∀ n, n ∈ m ↔ n ∈ m') :
    m.len = m'.len := by
  rw [len_eq_keys_length, len_eq_keys_length]
  apply List.Perm.length_eq
  rw [List.perm_ext_iff_of_nodup m.keys_nodup m'.keys_nodup]
  intro n
  exact h n

/-- A map whose keys all belong to a second map with as many keys has the same keys. -/
theorem mem_iff_of_subset_of_len {W : Type} (m : GoMap V) (m' : GoMap W)
    (hsub : ∀ n, n ∈ m → n ∈ m') (hlen : m.len = m'.len) (n : String) : n ∈ m ↔ n ∈ m' := by
  have hsp : List.Subperm m.keys m'.keys :=
    List.subperm_of_subset m.keys_nodup (fun a ha => hsub a ha)
  have hperm : List.Perm m.keys m'.keys := by
    apply hsp.perm_of_length_le
    rw [← len_eq_keys_length, ← len_eq_keys_length, hlen]
  exact hperm.mem_iff

end GoMap

/-! ## Facts about the listing loop and the two change checks -/

namespace monitor

theorem scan_nil : scan [] = ⟨∅, ∅, []⟩ := rfl

theorem scan_append_singleton (items : List ConfigMap) (cm : ConfigMap) :
    scan (items ++ [cm]) =
      if HasPrefix cm.Name configMapPrefix then
        { currentNames := (scan items).currentNames.set cm.Name ()
          currentVersions := (scan items).currentVersions.set cm.Name cm.ResourceVersion
          scopedConfigMaps := (scan items).scopedConfigMaps ++ [cm] }
      else scan items := by
  simp [scan, List.foldl_append]

/-- The keys of `currentNames` are the names of the listed objects that carry the prefix. -/
theorem mem_currentNames (items : List ConfigMap) (n : String) :
    n ∈ (scan items).currentNames ↔
      ∃ cm ∈ items, HasPrefix cm.Name configMapPrefix = true ∧ cm.Name = n := by
  induction items using List.reverseRecOn with
  | nil => simp [scan_nil]
  | append_singleton items cm ih =>
    rw [scan_append_singleton]
    by_cases hp : HasPrefix cm.Name configMapPrefix = true
    · simp only [hp, if_true, GoMap.mem_set, ih, List.mem_append, List.mem_singleton]
      constructor
      · rintro (h | ⟨c, hc, hcp, hcn⟩)
        · exact ⟨cm, Or.inr rfl, hp, h.symm⟩
        · exact ⟨c, Or.inl hc, hcp, hcn⟩
      · rintro ⟨c, hc | hc, hcp, hcn⟩
        · exact Or.inr ⟨c, hc, hcp, hcn⟩
        · subst hc
          exact Or.inl hcn.symm
    · simp only [if_neg hp, ih, List.mem_append, List.mem_singleton]
      constructor
      · rintro ⟨c, hc, hcp, hcn⟩
        exact ⟨c, Or.inl hc, hcp, hcn⟩
      · rintro ⟨c, hc | hc, hcp, hcn⟩
        · exact ⟨c, hc, hcp, hcn⟩
        · subst hc
          exact absurd hcp hp

/-- Map `currentVersions` has the keys of `currentNames`. -/
theorem mem_currentVersions (items : List ConfigMap) (n : String) :
    n ∈ (scan items).currentVersions ↔ n ∈ (scan items).currentNames := by
  induction items using List.reverseRecOn with
  | nil => simp [scan_nil]
  | append_singleton items cm ih =>
    rw [scan_append_singleton]
    by_cases hp : HasPrefix cm.Name configMapPrefix = true
    · simp only [hp, if_true, GoMap.mem_set, ih]
    · simp only [if_neg hp, ih]

/-- List `scopedConfigMaps` is the listing restricted to the names that carry the prefix. -/
theorem scopedConfigMaps_eq (items : List ConfigMap) :
    (scan items).scopedConfigMaps = items.filter (fun cm => HasPrefix cm.Name configMapPrefix) := by
  induction items using List.reverseRecOn with
  | nil => simp [scan_nil]
  | append_singleton items cm ih =>
    rw [scan_append_singleton]
    by_cases hp : HasPrefix cm.Name configMapPrefix = true
    · simp [hp, ih, List.filter_append]
    · simp [hp, ih, List.filter_append]

/-- When no two listed objects with the prefix share a name, `currentVersions` maps each of
them to its own version. -/
theorem lookup_currentVersions (items : List ConfigMap)
    (hnd : ((items.filter (fun cm => HasPrefix cm.Name configMapPrefix)).map
      (fun cm => cm.Name)).Nodup)
    (cm : ConfigMap) (hcm : cm ∈ items) (hp : HasPrefix cm.Name configMapPrefix = true) :
    (scan items).currentVersions.lookup cm.Name = some cm.ResourceVersion := by
  induction items using List.reverseRecOn with
  | nil => simp at hcm
  | append_singleton items c ih =>
    rw [scan_append_singleton]
    rw [List.filter_append, List.map_append, List.nodup_append] at hnd
    obtain ⟨hnd1, -, hdisj⟩ := hnd
    rcases List.mem_append.1 hcm with hmem | hmem
    · by_cases hc : HasPrefix c.Name configMapPrefix = true
      · have hne : cm.Name ≠ c.Name := by
          intro heq
          apply hdisj (a := cm.Name)
          · exact List.mem_map.2 ⟨cm, List.mem_filter.2 ⟨hmem, by simpa using hp⟩, rfl⟩
          · simp [hc, heq]
        simp only [hc, if_true]
        rw [GoMap.lookup_set_ne _ _ _ _ hne]
        exact ih hnd1 hmem
      · simp only [if_neg hc]
        exact ih hnd1 hmem
    · have : cm = c := by simpa using hmem
      subst this
      simp only [hp, if_true]
      exact GoMap.lookup_set_self _ _ _

/-- The identity check stays silent exactly when the two maps have the same keys. -/
theorem nameChanged_eq_false_iff (currentNames lastConfigMapNames : GoMap Unit) :
    nameChanged currentNames lastConfigMapNames = false ↔
      ∀ n, n ∈ currentNames ↔ n ∈ lastConfigMapNames := by
  unfold nameChanged
  constructor
  · intro h
    by_cases hlen : currentNames.len = lastConfigMapNames.len
    · simp only [hlen, bne_self_eq_false, Bool.false_eq_true, if_false] at h
      have hsub : ∀ n, n ∈ currentNames → n ∈ lastConfigMapNames := by
        intro n hn
        have h1 := List.any_eq_false.1 h n (AList.mem_keys.1 hn)
        have h2 : lastConfigMapNames.has n = true := by simpa using h1
        exact (GoMap.has_iff _ _).1 h2
      exact GoMap.mem_iff_of_subset_of_len _ _ hsub hlen
    · simp [hlen] at h
  · intro h
    have hlen : currentNames.len = lastConfigMapNames.len := GoMap.len_congr _ _ h
    simp only [hlen, bne_self_eq_false, Bool.false_eq_true, if_false]
    apply List.any_eq_false.2
    intro n hn
    have : lastConfigMapNames.has n = true :=
      (GoMap.has_iff _ _).2 ((h n).1 (AList.mem_keys.2 hn))
    simp [this]

theorem nameChanged_eq_true_iff (currentNames lastConfigMapNames : GoMap Unit) :
    nameChanged currentNames lastConfigMapNames = true ↔
      ¬ ∀ n, n ∈ currentNames ↔ n ∈ lastConfigMapNames := by
  rw [← nameChanged_eq_false_iff]
  simp

/-- With no identity change, the content check stays silent exactly when every current version
equals the recorded one (the empty string standing for "no record"). -/
theorem contentChanged_eq_false_iff (currentVersions lastConfigMapVersions : GoMap String) :
    contentChanged false currentVersions lastConfigMapVersions = false ↔
      ∀ n v, currentVersions.lookup n = some v → lastConfigMapVersions.getD n "" = v := by
  unfold contentChanged
  simp only [Bool.not_false, if_true]
  rw [List.any_eq_false]
  constructor
  · intro h n v hv
    have hmem : (⟨n, v⟩ : Sigma (fun _ : String => String)) ∈ currentVersions.entries :=
      AList.mem_lookup_iff.1 (by simpa [GoMap.lookup] using hv)
    simpa using h _ hmem
  · intro h nv hnv
    have hv : currentVersions.lookup nv.1 = some nv.2 := by
      have := AList.mem_lookup_iff.2 hnv
      simpa [GoMap.lookup] using this
    simpa using h _ _ hv

theorem contentChanged_of_nameChanged (currentVersions lastConfigMapVersions : GoMap String) :
    contentChanged true currentVersions lastConfigMapVersions = false := by
  simp [contentChanged]

end monitor

/-! ## The verifier -/

namespace verifier

theorem isRepositoryInScope_of_parsed (env : Env) (repository data : String)
    (config : ScopedConfigOptimized) (hstat : env.stat configFilePath = .ok)
    (hread : env.readFile configFilePath = .ok data)
    (hparse : env.unmarshalScopedConfigOptimized data = .ok config) :
    isRepositoryInScope env repository = .ok (config.HasScope repository) := by
  simp [isRepositoryInScope, hstat, hread, hparse]

theorem HasScope_eq_true_iff (config : ScopedConfigOptimized) (scope : String) :
    config.HasScope scope = true ↔ config.ScopeMap.lookup scope = some true := by
  unfold ScopedConfigOptimized.HasScope GoMap.getD
  cases h : config.ScopeMap.lookup scope with
  | none => simp
  | some b => simp

/-- C1 (fail-open on absence): when `os.Stat` reports that the snapshot path does not exist,
`isRepositoryInScope` returns `(true, nil)` for every repository string. -/
theorem isRepositoryInScope_absent (env : Env) (repository : String)
    (habsent : env.stat configFilePath = .notExist) :
    isRepositoryInScope env repository = .ok true := by
  simp [isRepositoryInScope, habsent]

/-- The scenario of C1: a host without a snapshot file, asked about `registry.io/app`. -/
theorem isRepositoryInScope_absent_witness :
    hostWithoutSnapshot.stat configFilePath = .notExist ∧
      isRepositoryInScope hostWithoutSnapshot "registry.io/app" = .ok true :=
  ⟨by decide, isRepositoryInScope_absent hostWithoutSnapshot "registry.io/app" (by decide)⟩

/-- C2 as stated fails: the snapshot `{"scopeMap": {"registry.io/app": false}}` parses and has
the key `registry.io/app`, yet `isRepositoryInScope` returns `(false, nil)` for it. -/
theorem isRepositoryInScope_key_not_sufficient :
    (hostWithSnapshot falseSnapshot).stat configFilePath = .ok ∧
    (hostWithSnapshot falseSnapshot).readFile configFilePath = .ok "snapshot file contents" ∧
    (hostWithSnapshot falseSnapshot).unmarshalScopedConfigOptimized "snapshot file contents" =
      .ok falseSnapshot ∧
    "registry.io/app" ∈ falseSnapshot.ScopeMap ∧
    isRepositoryInScope (hostWithSnapshot falseSnapshot) "registry.io/app" = .ok false ∧
    ¬ (isRepositoryInScope (hostWithSnapshot falseSnapshot) "registry.io/app" = .ok true ↔
      "registry.io/app" ∈ falseSnapshot.ScopeMap) := by
  refine ⟨by decide, rfl, rfl, by decide, rfl, ?_⟩
  intro h
  have hfalse : isRepositoryInScope (hostWithSnapshot falseSnapshot) "registry.io/app" =
      .ok false := rfl
  have htrue := h.2 (by decide)
  rw [hfalse] at htrue
  injection htrue with hb
  exact Bool.noConfusion hb

/-- C2, amended: for a snapshot file that is read and parsed successfully, `isRepositoryInScope`
returns without error, and it returns `true` exactly when the snapshot's `scopeMap` holds the
repository string as a key with the value `true` (keys are compared by exact string equality);
when every value of the `scopeMap` is `true`, that is exactly when the repository is a key. -/
theorem isRepositoryInScope_membership (env : Env) (repository data : String)
    (config : ScopedConfigOptimized) (hstat : env.stat configFilePath = .ok)
    (hread : env.readFile configFilePath = .ok data)
    (hparse : env.unmarshalScopedConfigOptimized data = .ok config) :
    (∃ inScope, isRepositoryInScope env repository = .ok inScope) ∧
    (isRepositoryInScope env repository = .ok true ↔
      config.ScopeMap.lookup repository = some true) ∧
    ((∀ k v, config.ScopeMap.lookup k = some v → v = true) →
      (isRepositoryInScope env repository = .ok true ↔ repository ∈ config.ScopeMap)) := by
  have h := isRepositoryInScope_of_parsed env repository data config hstat hread hparse
  have hiff : isRepositoryInScope env repository = .ok true ↔
      config.ScopeMap.lookup repository = some true := by
    rw [h, ← HasScope_eq_true_iff]
    constructor
    · intro heq
      injection heq
    · intro heq
      rw [heq]
  refine ⟨⟨_, h⟩, hiff, ?_⟩
  intro hall
  rw [hiff]
  constructor
  · intro hget
    by_contra hmem
    rw [(GoMap.lookup_eq_none_iff _ _).2 hmem] at hget
    exact Option.noConfusion hget
  · intro hmem
    cases hget : config.ScopeMap.lookup repository with
    | none => exact absurd hmem ((GoMap.lookup_eq_none_iff _ _).1 hget)
    | some v => rw [hall _ _ hget]

/-- The scenario of C2: the snapshot `{"registry.io/app": true}` gives `true` for
`registry.io/app` and not for `registry.io/app2` or `registry.io/App`. -/
theorem isRepositoryInScope_membership_witness :
    isRepositoryInScope (hostWithSnapshot appSnapshot) "registry.io/app" = .ok true ∧
    ¬ isRepositoryInScope (hostWithSnapshot appSnapshot) "registry.io/app2" = .ok true ∧
    ¬ isRepositoryInScope (hostWithSnapshot appSnapshot) "registry.io/App" = .ok true :=
  ⟨(isRepositoryInScope_membership (hostWithSnapshot appSnapshot) "registry.io/app"
      "snapshot file contents" appSnapshot (by decide) rfl rfl).2.1.2 (by decide),
   fun h => absurd
    ((isRepositoryInScope_membership (hostWithSnapshot appSnapshot) "registry.io/app2"
      "snapshot file contents" appSnapshot (by decide) rfl rfl).2.1.1 h) (by decide),
   fun h => absurd
    ((isRepositoryInScope_membership (hostWithSnapshot appSnapshot) "registry.io/App"
      "snapshot file contents" appSnapshot (by decide) rfl rfl).2.1.1 h) (by decide)⟩

end verifier

/-! ## The snapshot built from the collected scopes -/

namespace models

theorem foldl_set_lookup (scopes : List String) (scopeMap : GoMap Bool) (r : String) :
    (scopes.foldl (fun scopeMap scope => scopeMap.set scope true) scopeMap).lookup r =
      if r ∈ scopes then some true else scopeMap.lookup r := by
  induction scopes generalizing scopeMap with
  | nil => simp
  | cons a rest ih =>
    rw [List.foldl_cons, ih, GoMap.lookup_set]
    by_cases hr : r ∈ rest
    · simp [hr]
    · by_cases ha : r = a
      · simp [ha]
      · simp [hr, ha]

theorem ToOptimizedFromScopes_lookup (scopes : List String) (now : Time) (r : String) :
    (ToOptimizedFromScopes scopes now).ScopeMap.lookup r =
      if r ∈ scopes then some true else none := by
  unfold ToOptimizedFromScopes
  simp only
  rw [foldl_set_lookup, GoMap.lookup_empty]

theorem mem_ToOptimizedFromScopes (scopes : List String) (now : Time) (r : String) :
    r ∈ (ToOptimizedFromScopes scopes now).ScopeMap ↔ r ∈ scopes := by
  have h := ToOptimizedFromScopes_lookup scopes now r
  by_cases hr : r ∈ scopes
  · rw [if_pos hr] at h
    constructor
    · intro _
      exact hr
    · intro _
      by_contra hn
      rw [(GoMap.lookup_eq_none_iff _ _).2 hn] at h
      exact Option.noConfusion h
  · rw [if_neg hr] at h
    constructor
    · intro hm
      exact absurd hm ((GoMap.lookup_eq_none_iff _ _).1 h)
    · intro hm
      exact absurd hm hr

end models

namespace monitor

theorem mem_foldl_payloads (w : World) (entries : List (Sigma (fun _ : String => String)))
    (allScopes : List String) (r : String) :
    r ∈ entries.foldl
        (fun allScopes kv =>
          match w.unmarshalScopedConfig kv.2 with
          | .error _ => allScopes
          | .ok config => allScopes ++ config.Scopes)
        allScopes ↔
      r ∈ allScopes ∨
        ∃ kv ∈ entries, ∃ config, w.unmarshalScopedConfig kv.2 = .ok config ∧ r ∈ config.Scopes := by
  induction entries generalizing allScopes with
  | nil => simp
  | cons kv rest ih =>
    rw [List.foldl_cons, ih]
    cases hkv : w.unmarshalScopedConfig kv.2 with
    | error e => simp [hkv]
    | ok config =>
      simp only [List.mem_append, List.mem_cons, exists_eq_or_imp, hkv]
      constructor
      · rintro ((h | h) | h)
        · exact Or.inl h
        · exact Or.inr (Or.inl ⟨config, rfl, h⟩)
        · exact Or.inr (Or.inr h)
      · rintro (h | ⟨c, hc, h⟩ | h)
        · exact Or.inl (Or.inl h)
        · injection hc with hc
          subst hc
          exact Or.inl (Or.inr h)
        · exact Or.inr h

theorem mem_foldl_configMaps (w : World) (configMaps : List ConfigMap)
    (allScopes : List String) (r : String) :
    r ∈ configMaps.foldl
        (fun allScopes cm =>
          cm.Data.entries.foldl
            (fun allScopes kv =>
              match w.unmarshalScopedConfig kv.2 with
              | .error _ => allScopes
              | .ok config => allScopes ++ config.Scopes)
            allScopes)
        allScopes ↔
      r ∈ allScopes ∨
        ∃ cm ∈ configMaps, ∃ kv ∈ cm.Data.entries, ∃ config,
          w.unmarshalScopedConfig kv.2 = .ok config ∧ r ∈ config.Scopes := by
  induction configMaps generalizing allScopes with
  | nil => simp
  | cons cm rest ih =>
    rw [List.foldl_cons, ih, mem_foldl_payloads]
    simp only [List.mem_cons, exists_eq_or_imp]
    exact or_assoc

/-- The list `allScopes` holds exactly the scopes of the payloads that parse. -/
theorem mem_collectScopes (w : World) (configMaps : List ConfigMap) (r : String) :
    r ∈ collectScopes w configMaps ↔
      ∃ cm ∈ configMaps, ∃ key value config,
        cm.Data.lookup key = some value ∧ w.unmarshalScopedConfig value = .ok config ∧
          r ∈ config.Scopes := by
  unfold collectScopes
  rw [mem_foldl_configMaps]
  simp only [List.not_mem_nil, false_or]
  constructor
  · rintro ⟨cm, hcm, kv, hkv, config, hparse, hr⟩
    refine ⟨cm, hcm, kv.1, kv.2, config, ?_, hparse, hr⟩
    have := AList.mem_lookup_iff.2 hkv
    simpa [GoMap.lookup] using this
  · rintro ⟨cm, hcm, key, value, config, hget, hparse, hr⟩
    refine ⟨cm, hcm, ⟨key, value⟩, ?_, config, hparse, hr⟩
    exact AList.mem_lookup_iff.1 (by simpa [GoMap.lookup] using hget)

end monitor

namespace models

/-- C3 (union and deduplication): for every list of scopes, the `ScopeMap` of
`ToOptimizedFromScopes` maps every string of the list to `true` and has no other key, its keys
are the distinct strings of the list (each once), and `HasScope` holds for exactly the strings
that occur in the list; the lists `["a","b"]` and `["b","c"]` give the three keys `a`, `b`, `c`.
For the list the monitor collects, `HasScope` holds for exactly the scopes of the payloads that
parse. -/
theorem ToOptimizedFromScopes_union_dedup (scopes : List String) (now : Time) :
    (∀ r, (ToOptimizedFromScopes scopes now).ScopeMap.lookup r =
      if r ∈ scopes then some true else none) ∧
    List.Perm (ToOptimizedFromScopes scopes now).ScopeMap.keys scopes.dedup ∧
    (ToOptimizedFromScopes scopes now).ScopeMap.len = scopes.dedup.length ∧
    (∀ r, (ToOptimizedFromScopes scopes now).HasScope r = true ↔ r ∈ scopes) ∧
    List.Perm (ToOptimizedFromScopes (["a", "b"] ++ ["b", "c"]) now).ScopeMap.keys
      ["a", "b", "c"] ∧
    (∀ (w : monitor.World) (configMaps : List monitor.ConfigMap) (r : String),
      (ToOptimizedFromScopes (monitor.collectScopes w configMaps) now).HasScope r = true ↔
        ∃ cm ∈ configMaps, ∃ key value config,
          cm.Data.lookup key = some value ∧ w.unmarshalScopedConfig value = .ok config ∧
            r ∈ config.Scopes) := by
  have hget : ∀ (l : List String) (r : String),
      (ToOptimizedFromScopes l now).ScopeMap.lookup r = if r ∈ l then some true else none :=
    fun l r => ToOptimizedFromScopes_lookup l now r
  have hperm : ∀ l : List String,
      List.Perm (ToOptimizedFromScopes l now).ScopeMap.keys l.dedup := by
    intro l
    rw [List.perm_ext_iff_of_nodup (AList.keys_nodup _) (List.nodup_dedup l)]
    intro r
    rw [List.mem_dedup, ← AList.mem_keys]
    exact mem_ToOptimizedFromScopes l now r
  have hhas : ∀ (l : List String) (r : String),
      (ToOptimizedFromScopes l now).HasScope r = true ↔ r ∈ l := by
    intro l r
    rw [verifier.HasScope_eq_true_iff, hget]
    by_cases hr : r ∈ l
    · simp [hr]
    · simp [hr]
  refine ⟨hget scopes, hperm scopes, ?_, hhas scopes, ?_, ?_⟩
  · rw [GoMap.len_eq_keys_length]
    exact (hperm scopes).length_eq
  · have h := hperm (["a", "b"] ++ ["b", "c"])
    have hd : (["a", "b"] ++ ["b", "c"] : List String).dedup = ["a", "b", "c"] := by decide
    rw [hd] at h
    exact h
  · intro w configMaps r
    rw [hhas, monitor.mem_collectScopes]

end models

/-! ## The exit code of the verifier -/

namespace verifier

theorem length_pos_iff_ne_empty (s : String) : s.length > 0 ↔ s ≠ "" := by
  cases s with
  | mk l =>
    cases l with
    | nil => simp [String.length]
    | cons c cs =>
      simp only [String.length, List.length_cons, gt_iff_lt, Nat.zero_lt_succ, true_iff]
      intro h
      have := congrArg String.data h
      simp at this

/-- The captured output of `executeRatifyVerify`: the standard output of a run that exits with
zero, or standard output followed by standard error of a run that exits with a non-zero code
when the two together are not empty. -/
theorem executeRatifyVerify_eq_ok_iff (env : Env) (name digest ratifyOutput : String) :
    executeRatifyVerify env name digest = .ok ratifyOutput ↔
      (env.runCommand shared.RatifyBinPath
          ["verify", "-c", shared.RatifyConfigPath, "-s", name, "--digest", digest]
          ("HOME=" ++ shared.DefaultHomeDir) = .ok ratifyOutput ∨
        ∃ stdout stderr msg,
          env.runCommand shared.RatifyBinPath
          ["verify", "-c", shared.RatifyConfigPath, "-s", name, "--digest", digest]
          ("HOME=" ++ shared.DefaultHomeDir) = .exitError stdout stderr msg ∧
          ratifyOutput = stdout ++ stderr ∧ ratifyOutput ≠ "") := by
  unfold executeRatifyVerify
  simp only
  cases hrun : env.runCommand shared.RatifyBinPath
          ["verify", "-c", shared.RatifyConfigPath, "-s", name, "--digest", digest]
          ("HOME=" ++ shared.DefaultHomeDir) with
  | ok output =>
    simp only [reduceCtorEq, false_and, exists_false, or_false]
    constructor
    · intro h
      injection h with h
      rw [h]
    · intro h
      injection h with h
      rw [h]
  | exitError stdout stderr msg =>
    by_cases hlen : (stdout ++ stderr).length > 0
    · have hne := (length_pos_iff_ne_empty _).1 hlen
      simp only [hlen, if_true, reduceCtorEq, false_or]
      constructor
      · intro h
        injection h with h
        exact ⟨stdout, stderr, msg, rfl, h.symm, h ▸ hne⟩
      · rintro ⟨a, b, c, hc, hout, -⟩
        injection hc with h1 h2 h3
        rw [hout, h1, h2]
    · have hempty : stdout ++ stderr = "" := by
        by_contra hne
        exact hlen ((length_pos_iff_ne_empty _).2 hne)
      simp only [hlen, if_false, reduceCtorEq, false_or, false_iff]
      rintro ⟨a, b, c, hc, hout, hne⟩
      injection hc with h1 h2 h3
      rw [hout, ← h1, ← h2] at hne
      exact hne hempty
  | otherError stdout msg => simp

theorem main_of_parsed (env : Env) (args : List String) (flags : Flags) (ref : Reference)
    (hflags : flagParse args defaultFlags = .parsed flags)
    (hname : flags.name ≠ "") (hdigest : flags.digest ≠ "")
    (href : env.parseReference flags.name = .ok ref) :
    ((main env args).exitCode = 0 ∨ (main env args).exitCode = 1) ∧
    ((main env args).exitCode = 0 ↔
      isRepositoryInScope env (env.referenceString { ref with Reference := "" }) = .ok false ∨
      (isRepositoryInScope env (env.referenceString { ref with Reference := "" }) = .ok true ∧
        env.stat shared.RatifyConfigPath = .notExist) ∨
      ((main env args).engineInvoked = true ∧
        ∃ ratifyOutput output, executeRatifyVerify env flags.name flags.digest = .ok ratifyOutput ∧
          env.unmarshalRatifyOutput ratifyOutput = .ok output ∧ output.IsSuccess = true)) ∧
    (isRepositoryInScope env (env.referenceString { ref with Reference := "" }) = .ok false →
      (main env args).engineInvoked = false) ∧
    ((main env args).engineInvoked = true ↔
      (isRepositoryInScope env (env.referenceString { ref with Reference := "" }) = .ok true ∧
        env.stat shared.RatifyConfigPath ≠ .notExist)) ∧
    ((∃ err, isRepositoryInScope env (env.referenceString { ref with Reference := "" }) =
        .error err) → (main env args).exitCode = 1) ∧
    (env.stat configFilePath = .ok →
      ((∃ err, env.readFile configFilePath = .error err) ∨
        ∃ data err, env.readFile configFilePath = .ok data ∧
          env.unmarshalScopedConfigOptimized data = .error err) →
      (main env args).exitCode = 1) := by
  have hcorrupt : env.stat configFilePath = .ok →
      ((∃ err, env.readFile configFilePath = .error err) ∨
        ∃ data err, env.readFile configFilePath = .ok data ∧
          env.unmarshalScopedConfigOptimized data = .error err) →
      ∃ err, isRepositoryInScope env (env.referenceString { ref with Reference := "" }) =
        .error err := by
    intro hstat hbad
    rcases hbad with ⟨err, hread⟩ | ⟨data, err, hread, hparse⟩
    · simp [isRepositoryInScope, hstat, hread]
    · simp [isRepositoryInScope, hstat, hread, hparse]
  have hmain : main env args =
      match isRepositoryInScope env (env.referenceString { ref with Reference := "" }) with
      | .error _ => ⟨1, false⟩
      | .ok false => ⟨0, false⟩
      | .ok true =>
        if env.stat shared.RatifyConfigPath = .notExist then ⟨0, false⟩
        else
          match executeRatifyVerify env flags.name flags.digest with
          | .error _ => ⟨1, true⟩
          | .ok ratifyOutput =>
            match env.unmarshalRatifyOutput ratifyOutput with
            | .error _ => ⟨1, true⟩
            | .ok output => if output.IsSuccess then ⟨0, true⟩ else ⟨1, true⟩ := by
    simp [main, hflags, hname, hdigest, href]
  cases hscope : isRepositoryInScope env (env.referenceString { ref with Reference := "" }) with
  | error err =>
    have hm : main env args = ⟨1, false⟩ := by rw [hmain, hscope]
    rw [hm]
    simp
  | ok inScope =>
    have hnoerr : ¬ ∃ err, isRepositoryInScope env
        (env.referenceString { ref with Reference := "" }) = .error err := by
      rw [hscope]
      simp
    have hc : env.stat configFilePath = .ok →
        ((∃ err, env.readFile configFilePath = .error err) ∨
          ∃ data err, env.readFile configFilePath = .ok data ∧
            env.unmarshalScopedConfigOptimized data = .error err) →
        (main env args).exitCode = 1 :=
      fun h1 h2 => absurd (hcorrupt h1 h2) hnoerr
    refine ⟨?_, ?_, ?_, ?_, fun h => absurd h (by simp), hc⟩
    all_goals
      cases inScope with
      | false =>
        have hm : main env args = ⟨0, false⟩ := by rw [hmain, hscope]
        rw [hm]
        simp
      | true =>
        by_cases hcfg : env.stat shared.RatifyConfigPath = .notExist
        · have hm : main env args = ⟨0, false⟩ := by
            rw [hmain, hscope]
            simp [hcfg]
          rw [hm]
          simp [hcfg]
        · cases hexec : executeRatifyVerify env flags.name flags.digest with
          | error err =>
            have hm : main env args = ⟨1, true⟩ := by
              rw [hmain, hscope]
              simp [hcfg, hexec]
            rw [hm]
            simp [hcfg]
          | ok ratifyOutput =>
            cases hout : env.unmarshalRatifyOutput ratifyOutput with
            | error err =>
              have hm : main env args = ⟨1, true⟩ := by
                rw [hmain, hscope]
                simp [hcfg, hexec, hout]
              rw [hm]
              simp [hcfg, hout]
            | ok output =>
              cases hs : output.IsSuccess with
              | false =>
                have hm : main env args = ⟨1, true⟩ := by
                  rw [hmain, hscope]
                  simp [hcfg, hexec, hout, hs]
                rw [hm]
                simp [hcfg, hout, hs]
              | true =>
                have hm : main env args = ⟨0, true⟩ := by
                  rw [hmain, hscope]
                  simp [hcfg, hexec, hout, hs]
                rw [hm]
                simp [hcfg, hout, hs]

theorem parseOne_finish_exit (s : String) (next : Option String) (flags : Flags) (code : Nat)
    (h : parseOne s next flags = .finish (.exit code)) : code = 0 ∨ code = 2 := by
  unfold parseOne at h
  split at h
  · simp at h
  · simp only [FlagStep.finish.injEq, FlagParse.exit.injEq] at h
    exact Or.inr h.symm
  · split at h
    · split at h
      · simp only [FlagStep.finish.injEq, FlagParse.exit.injEq] at h
        exact Or.inl h.symm
      · simp only [FlagStep.finish.injEq, FlagParse.exit.injEq] at h
        exact Or.inr h.symm
    · split at h
      · simp at h
      · simp at h
      · simp only [FlagStep.finish.injEq, FlagParse.exit.injEq] at h
        exact Or.inr h.symm

/-- The only codes `flag.Parse` exits with are 0 (for `-h` or `-help`) and 2. -/
theorem flagParse_exit (args : List String) (flags : Flags) (code : Nat)
    (h : flagParse args flags = .exit code) : code = 0 ∨ code = 2 := by
  induction args, flags using flagParse.induct with
  | case1 flags => simp [flagParse] at h
  | case2 s flags outcome hone =>
    simp only [flagParse, hone] at h
    exact parseOne_finish_exit s none flags code (by rw [hone, h])
  | case3 s flags took flags2 hone =>
    simp [flagParse, hone] at h
  | case4 s v rest flags outcome hone =>
    simp only [flagParse, hone] at h
    exact parseOne_finish_exit s (some v) flags code (by rw [hone, h])
  | case5 s v rest flags flags2 hone ih =>
    simp only [flagParse, hone] at h
    exact ih h
  | case6 s v rest flags flags2 hone ih =>
    simp only [flagParse, hone] at h
    exact ih h

theorem main_of_flag_exit (env : Env) (args : List String) (code : Nat)
    (hflags : flagParse args defaultFlags = .exit code) : main env args = ⟨code, false⟩ := by
  simp [main, hflags]

/-- C4 as stated fails: with `-name registry.io/app2:v1 -digest sha256:0a -undefined`, a name
that parses and a repository that the snapshot puts out of scope, `flag.Parse` exits with 2
before any check, so the exit code is neither 0 nor 1 although case (a) holds; and with
`-name registry.io/app:v1 -digest sha256:0a -h`, on a host where the repository is in scope,
the ratify configuration exists and the engine was not invoked, the exit code is 0 although
none of (a), (b), (c) holds. -/
theorem main_exit_code_flag_rejected :
    flagParse ["-name", "registry.io/app2:v1", "-digest", "sha256:0a", "-undefined"]
      defaultFlags = .exit 2 ∧
    (hostWithSnapshot appSnapshot).parseReference "registry.io/app2:v1" =
      .ok ⟨"registry.io", "app2", "v1"⟩ ∧
    isRepositoryInScope (hostWithSnapshot appSnapshot)
      ((hostWithSnapshot appSnapshot).referenceString ⟨"registry.io", "app2", ""⟩) =
        .ok false ∧
    (main (hostWithSnapshot appSnapshot)
      ["-name", "registry.io/app2:v1", "-digest", "sha256:0a", "-undefined"]).exitCode = 2 ∧
    flagParse ["-name", "registry.io/app:v1", "-digest", "sha256:0a", "-h"] defaultFlags =
      .exit 0 ∧
    isRepositoryInScope (hostWithFailingVerification appSnapshot)
      ((hostWithFailingVerification appSnapshot).referenceString ⟨"registry.io", "app", ""⟩) =
        .ok true ∧
    (hostWithFailingVerification appSnapshot).stat shared.RatifyConfigPath = .ok ∧
    (main (hostWithFailingVerification appSnapshot)
      ["-name", "registry.io/app:v1", "-digest", "sha256:0a", "-h"]).engineInvoked = false ∧
    (main (hostWithFailingVerification appSnapshot)
      ["-name", "registry.io/app:v1", "-digest", "sha256:0a", "-h"]).exitCode = 0 :=
  ⟨by decide, rfl, rfl, rfl, by decide, rfl, by decide, rfl, rfl⟩

/-- C4, amended (exit code of the gate): for every command line that `flag.Parse` accepts
and that leaves `-name` and `-digest` non-empty with a name that parses, `main` exits with
0 or with 1, and it exits with 0 exactly when (a) the repository is reported out of scope, or
(b) it is in scope and the ratify configuration file does not exist, or (c) the engine was
invoked and its captured output (standard output of a run that exits with zero; standard
output followed by standard error, when not empty, of a run that exits with a non-zero code)
parses to an envelope with `isSuccess = true`.  In case (a) the engine is not invoked; it is
invoked exactly when the repository is in scope and the configuration file is not reported
absent.  The exit code is 1 when the scope check returns an error, in particular when the
snapshot exists but cannot be read or parsed; when the invoked engine cannot be started or
exits with a non-zero code and no output; when the captured output does not parse; and when
it parses to an envelope with `isSuccess = false`. -/
theorem main_exit_code (env : Env) (args : List String) (flags : Flags) (ref : Reference)
    (hflags : flagParse args defaultFlags = .parsed flags)
    (hname : flags.name ≠ "") (hdigest : flags.digest ≠ "")
    (href : env.parseReference flags.name = .ok ref) :
    ((main env args).exitCode = 0 ∨ (main env args).exitCode = 1) ∧
    ((main env args).exitCode = 0 ↔
      isRepositoryInScope env (env.referenceString { ref with Reference := "" }) = .ok false ∨
      (isRepositoryInScope env (env.referenceString { ref with Reference := "" }) = .ok true ∧
        env.stat shared.RatifyConfigPath = .notExist) ∨
      ((main env args).engineInvoked = true ∧
        ∃ ratifyOutput output,
          (env.runCommand shared.RatifyBinPath
        ["verify", "-c", shared.RatifyConfigPath, "-s", flags.name, "--digest", flags.digest]
        ("HOME=" ++ shared.DefaultHomeDir) = .ok ratifyOutput ∨
        ∃ stdout stderr msg,
          env.runCommand shared.RatifyBinPath
        ["verify", "-c", shared.RatifyConfigPath, "-s", flags.name, "--digest", flags.digest]
        ("HOME=" ++ shared.DefaultHomeDir) = .exitError stdout stderr msg ∧
          ratifyOutput = stdout ++ stderr ∧ ratifyOutput ≠ "") ∧
          env.unmarshalRatifyOutput ratifyOutput = .ok output ∧ output.IsSuccess = true)) ∧
    (isRepositoryInScope env (env.referenceString { ref with Reference := "" }) = .ok false →
      (main env args).engineInvoked = false) ∧
    ((main env args).engineInvoked = true ↔
      (isRepositoryInScope env (env.referenceString { ref with Reference := "" }) = .ok true ∧
        env.stat shared.RatifyConfigPath ≠ .notExist)) ∧
    ((∃ err, isRepositoryInScope env (env.referenceString { ref with Reference := "" }) = .error err) →
      (main env args).exitCode = 1) ∧
    (env.stat configFilePath = .ok →
      ((∃ err, env.readFile configFilePath = .error err) ∨
        ∃ data err, env.readFile configFilePath = .ok data ∧
          env.unmarshalScopedConfigOptimized data = .error err) →
      (main env args).exitCode = 1) ∧
    ((main env args).engineInvoked = true →
      (∃ stdout msg, env.runCommand shared.RatifyBinPath
        ["verify", "-c", shared.RatifyConfigPath, "-s", flags.name, "--digest", flags.digest]
        ("HOME=" ++ shared.DefaultHomeDir) = .otherError stdout msg) →
      (main env args).exitCode = 1) ∧
    ((main env args).engineInvoked = true →
      (∃ stdout stderr msg, env.runCommand shared.RatifyBinPath
        ["verify", "-c", shared.RatifyConfigPath, "-s", flags.name, "--digest", flags.digest]
        ("HOME=" ++ shared.DefaultHomeDir) = .exitError stdout stderr msg ∧ stdout ++ stderr = "") →
      (main env args).exitCode = 1) ∧
    ((main env args).engineInvoked = true →
      ∀ ratifyOutput,
        (env.runCommand shared.RatifyBinPath
        ["verify", "-c", shared.RatifyConfigPath, "-s", flags.name, "--digest", flags.digest]
        ("HOME=" ++ shared.DefaultHomeDir) = .ok ratifyOutput ∨
        ∃ stdout stderr msg,
          env.runCommand shared.RatifyBinPath
        ["verify", "-c", shared.RatifyConfigPath, "-s", flags.name, "--digest", flags.digest]
        ("HOME=" ++ shared.DefaultHomeDir) = .exitError stdout stderr msg ∧
          ratifyOutput = stdout ++ stderr ∧ ratifyOutput ≠ "") →
        (∃ err, env.unmarshalRatifyOutput ratifyOutput = .error err) →
        (main env args).exitCode = 1) ∧
    ((main env args).engineInvoked = true →
      ∀ ratifyOutput output,
        (env.runCommand shared.RatifyBinPath
        ["verify", "-c", shared.RatifyConfigPath, "-s", flags.name, "--digest", flags.digest]
        ("HOME=" ++ shared.DefaultHomeDir) = .ok ratifyOutput ∨
        ∃ stdout stderr msg,
          env.runCommand shared.RatifyBinPath
        ["verify", "-c", shared.RatifyConfigPath, "-s", flags.name, "--digest", flags.digest]
        ("HOME=" ++ shared.DefaultHomeDir) = .exitError stdout stderr msg ∧
          ratifyOutput = stdout ++ stderr ∧ ratifyOutput ≠ "") →
        env.unmarshalRatifyOutput ratifyOutput = .ok output → output.IsSuccess = false →
        (main env args).exitCode = 1) := by
  obtain ⟨h01, hiff, hA, hinv, hscopeErr, hcorrupt⟩ :=
    main_of_parsed env args flags ref hflags hname hdigest href
  have hfail : (main env args).engineInvoked = true →
      (¬ ∃ ratifyOutput output,
        executeRatifyVerify env flags.name flags.digest = .ok ratifyOutput ∧
          env.unmarshalRatifyOutput ratifyOutput = .ok output ∧ output.IsSuccess = true) →
      (main env args).exitCode = 1 := by
    intro hi hno
    rcases h01 with h0 | h1
    · exfalso
      rcases hiff.1 h0 with ha | hb | hc
      · have hni := hA ha
        rw [hi] at hni
        exact Bool.noConfusion hni
      · exact (hinv.1 hi).2 hb.2
      · exact hno hc.2
    · exact h1
  have hiff2 := hiff
  simp only [executeRatifyVerify_eq_ok_iff] at hiff2
  refine ⟨h01, hiff2, hA, hinv, hscopeErr, hcorrupt, ?_, ?_, ?_, ?_⟩
  · rintro hi ⟨stdout, msg, hrun⟩
    apply hfail hi
    rintro ⟨out, o, hexec, -, -⟩
    rw [executeRatifyVerify_eq_ok_iff, hrun] at hexec
    simp at hexec
  · rintro hi ⟨stdout, stderr, msg, hrun, hempty⟩
    apply hfail hi
    rintro ⟨out, o, hexec, -, -⟩
    rw [executeRatifyVerify_eq_ok_iff, hrun] at hexec
    rcases hexec with h | ⟨a, b, c, hc, hout, hne⟩
    · exact CmdResult.noConfusion h
    · injection hc with h1 h2 h3
      rw [hout, ← h1, ← h2] at hne
      exact hne hempty
  · rintro hi out hcap ⟨err, herr⟩
    apply hfail hi
    rintro ⟨out2, o, hexec, hparse, -⟩
    have hcap2 := (executeRatifyVerify_eq_ok_iff env flags.name flags.digest out).2 hcap
    rw [hcap2] at hexec
    injection hexec with heq
    rw [← heq, herr] at hparse
    exact Except.noConfusion hparse
  · rintro hi out output hcap hparse hs
    apply hfail hi
    rintro ⟨out2, o, hexec, hparse2, hs2⟩
    have hcap2 := (executeRatifyVerify_eq_ok_iff env flags.name flags.digest out).2 hcap
    rw [hcap2] at hexec
    injection hexec with heq
    rw [← heq, hparse] at hparse2
    injection hparse2 with ho
    rw [← ho, hs] at hs2
    exact Bool.noConfusion hs2

/-- The scenarios of C4 (all with `-name` and `-digest` given): an in-scope image whose
verification succeeds exits with 0; an out-of-scope image does not reach the engine; a
snapshot that does not parse exits with 1; an engine that cannot be started exits with 1;
and an engine that reports a failed verification exits with 1. -/
theorem main_exit_code_witness :
    (main (hostWithSnapshot appSnapshot)
      ["-name", "registry.io/app:v1", "-digest", "sha256:0a"]).exitCode = 0 ∧
    (main (hostWithSnapshot appSnapshot)
      ["-name", "registry.io/app2:v1", "-digest", "sha256:0a"]).engineInvoked = false ∧
    (main hostWithCorruptSnapshot
      ["-name", "registry.io/app:v1", "-digest", "sha256:0a"]).exitCode = 1 ∧
    (main (hostWithoutEngine appSnapshot)
      ["-name", "registry.io/app:v1", "-digest", "sha256:0a"]).exitCode = 1 ∧
    (main (hostWithFailingVerification appSnapshot)
      ["-name", "registry.io/app:v1", "-digest", "sha256:0a"]).exitCode = 1 :=
  ⟨(main_exit_code (hostWithSnapshot appSnapshot)
      ["-name", "registry.io/app:v1", "-digest", "sha256:0a"]
      ⟨"registry.io/app:v1", "sha256:0a", ""⟩ ⟨"registry.io", "app", "v1"⟩
      (by decide) (by decide) (by decide) rfl).2.1.2
      (Or.inr (Or.inr ⟨rfl, "engine output", ⟨true, none, ""⟩, Or.inl rfl, rfl, rfl⟩)),
   (main_exit_code (hostWithSnapshot appSnapshot)
      ["-name", "registry.io/app2:v1", "-digest", "sha256:0a"]
      ⟨"registry.io/app2:v1", "sha256:0a", ""⟩ ⟨"registry.io", "app2", "v1"⟩
      (by decide) (by decide) (by decide) rfl).2.2.1 rfl,
   (main_exit_code hostWithCorruptSnapshot
      ["-name", "registry.io/app:v1", "-digest", "sha256:0a"]
      ⟨"registry.io/app:v1", "sha256:0a", ""⟩ ⟨"registry.io", "app", "v1"⟩
      (by decide) (by decide) (by decide) rfl).2.2.2.2.2.1 (by decide)
      (Or.inr ⟨"snapshot file contents", "unexpected end of JSON input", rfl, rfl⟩),
   (main_exit_code (hostWithoutEngine appSnapshot)
      ["-name", "registry.io/app:v1", "-digest", "sha256:0a"]
      ⟨"registry.io/app:v1", "sha256:0a", ""⟩ ⟨"registry.io", "app", "v1"⟩
      (by decide) (by decide) (by decide) rfl).2.2.2.2.2.2.1 rfl
      ⟨"", "fork/exec: no such file or directory", rfl⟩,
   (main_exit_code (hostWithFailingVerification appSnapshot)
      ["-name", "registry.io/app:v1", "-digest", "sha256:0a"]
      ⟨"registry.io/app:v1", "sha256:0a", ""⟩ ⟨"registry.io", "app", "v1"⟩
      (by decide) (by decide) (by decide) rfl).2.2.2.2.2.2.2.2.2 rfl
      "engine output" ⟨false, none, "signature missing"⟩
      (Or.inr ⟨"engine output", "", "exit status 1", rfl, by decide, by decide⟩) rfl rfl⟩

end verifier

/-! ## The cycle of the monitor -/

namespace monitor

theorem processConfigMaps_list_failed (w : World) (st : AggregatorState) (e : String)
    (hlist : w.listConfigMaps namespaceName = .error e) :
    processConfigMaps w st = ⟨some ("failed to list ConfigMaps: " ++ e), st, none⟩ := by
  simp [processConfigMaps, hlist]

theorem processConfigMaps_unchanged (w : World) (st : AggregatorState)
    (items : List ConfigMap) (hlist : w.listConfigMaps namespaceName = .ok items)
    (hname : nameChanged (scan items).currentNames st.lastConfigMapNames = false)
    (hcontent :
      contentChanged false (scan items).currentVersions st.lastConfigMapVersions = false) :
    processConfigMaps w st = ⟨none, st, none⟩ := by
  simp [processConfigMaps, hlist, hname, hcontent]

theorem processConfigMaps_changed_failed (w : World) (st : AggregatorState)
    (items : List ConfigMap) (e : String)
    (hlist : w.listConfigMaps namespaceName = .ok items)
    (hchanged :
      (nameChanged (scan items).currentNames st.lastConfigMapNames ||
        contentChanged (nameChanged (scan items).currentNames st.lastConfigMapNames)
          (scan items).currentVersions st.lastConfigMapVersions) = true)
    (hwrite : writeConfigMapsToSharedVolume w (scan items).scopedConfigMaps = .error e) :
    processConfigMaps w st =
      ⟨some ("failed to write ConfigMaps to shared volume: " ++ e), st, some (.error e)⟩ := by
  unfold processConfigMaps
  simp only [hlist, hchanged, if_true, hwrite]

theorem processConfigMaps_changed_written (w : World) (st : AggregatorState)
    (items : List ConfigMap)
    (hlist : w.listConfigMaps namespaceName = .ok items)
    (hchanged :
      (nameChanged (scan items).currentNames st.lastConfigMapNames ||
        contentChanged (nameChanged (scan items).currentNames st.lastConfigMapNames)
          (scan items).currentVersions st.lastConfigMapVersions) = true)
    (hwrite : writeConfigMapsToSharedVolume w (scan items).scopedConfigMaps = .ok ()) :
    processConfigMaps w st =
      ⟨none, ⟨(scan items).currentNames, (scan items).currentVersions⟩, some (.ok ())⟩ := by
  unfold processConfigMaps
  simp only [hlist, hchanged, if_true, hwrite]

/-- A flagged change makes the cycle call `writeConfigMapsToSharedVolume` on the listed objects
that carry the prefix. -/
theorem publish_of_changed (w : World) (st : AggregatorState) (items : List ConfigMap)
    (hlist : w.listConfigMaps namespaceName = .ok items)
    (hchanged :
      (nameChanged (scan items).currentNames st.lastConfigMapNames ||
        contentChanged (nameChanged (scan items).currentNames st.lastConfigMapNames)
          (scan items).currentVersions st.lastConfigMapVersions) = true) :
    (processConfigMaps w st).publish =
      some (writeConfigMapsToSharedVolume w
        (items.filter (fun cm => HasPrefix cm.Name configMapPrefix))) := by
  rw [← scopedConfigMaps_eq]
  cases hwrite : writeConfigMapsToSharedVolume w (scan items).scopedConfigMaps with
  | error e => rw [processConfigMaps_changed_failed w st items e hlist hchanged hwrite]
  | ok u => rw [processConfigMaps_changed_written w st items hlist hchanged hwrite]

theorem nameChanged_self (m : GoMap Unit) : nameChanged m m = false :=
  (nameChanged_eq_false_iff m m).2 (fun _ => Iff.rfl)

theorem contentChanged_self (m : GoMap String) : contentChanged false m m = false := by
  rw [contentChanged_eq_false_iff]
  intro n v hv
  simp [GoMap.getD, hv]

/-- C5 (idempotence of the cycle): when two consecutive cycles receive the same answer from the
listing call, they do not both publish successfully; and if the first returned without error,
the listing call had succeeded, the second cycle flags neither an identity nor a content
change, does not call the publish, returns without error and leaves the state as the first
cycle left it. -/
theorem processConfigMaps_idempotent (w₁ w₂ : World) (st : AggregatorState)
    (hsame : w₂.listConfigMaps namespaceName = w₁.listConfigMaps namespaceName) :
    ¬ ((processConfigMaps w₁ st).publish = some (.ok ()) ∧
        (processConfigMaps w₂ (processConfigMaps w₁ st).state).publish = some (.ok ())) ∧
    ((processConfigMaps w₁ st).err = none →
      (∃ items, w₂.listConfigMaps namespaceName = .ok items ∧
        nameChanged (scan items).currentNames
          (processConfigMaps w₁ st).state.lastConfigMapNames = false ∧
        contentChanged false (scan items).currentVersions
          (processConfigMaps w₁ st).state.lastConfigMapVersions = false) ∧
      (processConfigMaps w₂ (processConfigMaps w₁ st).state).publish = none ∧
      (processConfigMaps w₂ (processConfigMaps w₁ st).state).err = none ∧
      (processConfigMaps w₂ (processConfigMaps w₁ st).state).state =
        (processConfigMaps w₁ st).state) := by
  cases hlist : w₁.listConfigMaps namespaceName with
  | error e =>
    rw [processConfigMaps_list_failed w₁ st e hlist]
    simp
  | ok items =>
    have hlist₂ : w₂.listConfigMaps namespaceName = .ok items := hsame.trans hlist
    by_cases hchanged :
        (nameChanged (scan items).currentNames st.lastConfigMapNames ||
          contentChanged (nameChanged (scan items).currentNames st.lastConfigMapNames)
            (scan items).currentVersions st.lastConfigMapVersions) = true
    · cases hwrite : writeConfigMapsToSharedVolume w₁ (scan items).scopedConfigMaps with
      | error e =>
        rw [processConfigMaps_changed_failed w₁ st items e hlist hchanged hwrite]
        simp
      | ok u =>
        rw [processConfigMaps_changed_written w₁ st items hlist hchanged hwrite]
        have hsecond := processConfigMaps_unchanged w₂
          ⟨(scan items).currentNames, (scan items).currentVersions⟩ items hlist₂
          (nameChanged_self _) (contentChanged_self _)
        rw [hsecond]
        simp only [reduceCtorEq, and_false, not_false_eq_true, true_and, and_self, and_true,
          forall_const]
        exact ⟨items, hlist₂, nameChanged_self _, contentChanged_self _⟩
    · have hname : nameChanged (scan items).currentNames st.lastConfigMapNames = false := by
        cases h : nameChanged (scan items).currentNames st.lastConfigMapNames with
        | false => rfl
        | true => simp [h] at hchanged
      have hcontent :
          contentChanged false (scan items).currentVersions st.lastConfigMapVersions = false := by
        rw [hname] at hchanged
        simpa using hchanged
      have hfirst := processConfigMaps_unchanged w₁ st items hlist hname hcontent
      have hsecond := processConfigMaps_unchanged w₂ st items hlist₂ hname hcontent
      rw [hfirst, hsecond]
      simp only [reduceCtorEq, and_false, not_false_eq_true, true_and, and_self, and_true,
        forall_const]
      exact ⟨items, hlist₂, hname, hcontent⟩

/-- The scenario of C5: the listing `[cmA, cmB]` reaches a monitor in its initial state twice;
the first cycle publishes, the second does not call the publish. -/
theorem processConfigMaps_idempotent_witness :
    (clusterWith (.ok [cmA, cmB]) (.ok ())).listConfigMaps namespaceName =
      (clusterWith (.ok [cmA, cmB]) (.ok ())).listConfigMaps namespaceName ∧
    (processConfigMaps (clusterWith (.ok [cmA, cmB]) (.ok ())) initialState).err = none ∧
    (processConfigMaps (clusterWith (.ok [cmA, cmB]) (.ok ())) initialState).publish =
      some (.ok ()) ∧
    (processConfigMaps (clusterWith (.ok [cmA, cmB]) (.ok ()))
      (processConfigMaps (clusterWith (.ok [cmA, cmB]) (.ok ())) initialState).state).publish =
        none :=
  ⟨rfl, rfl, rfl,
   ((processConfigMaps_idempotent (clusterWith (.ok [cmA, cmB]) (.ok ()))
      (clusterWith (.ok [cmA, cmB]) (.ok ())) initialState rfl).2 rfl).2.1⟩

theorem stateAfterA_eq :
    stateAfterA =
      ⟨(∅ : GoMap Unit).set "scoped-config-a" (),
       (∅ : GoMap String).set "scoped-config-a" "1"⟩ := rfl

/-- The state `stateAfterA` records the names of the listing `[cmA]`. -/
theorem stateAfterA_names (n : String) :
    n ∈ stateAfterA.lastConfigMapNames ↔
      ∃ cm ∈ [cmA], HasPrefix cm.Name configMapPrefix = true ∧ cm.Name = n := by
  rw [stateAfterA_eq]
  constructor
  · intro h
    rcases (GoMap.mem_set _ _ _ _).1 h with h | h
    · exact ⟨cmA, by simp, by decide, h.symm⟩
    · exact absurd h (AList.not_mem_empty n)
  · rintro ⟨cm, hcm, -, rfl⟩
    have hcm : cm = cmA := by simpa using hcm
    subst hcm
    exact (GoMap.mem_set _ _ _ _).2 (Or.inl rfl)

/-- C6 (identity-change detection): when the recorded names are those of the prefix-carrying
objects of a listing `pre ++ post`, and the cycle receives that listing with one more object
`added` whose name carries the prefix and is borne by no object of `pre ++ post`, the identity
check flags a change and the cycle calls the publish on the prefix-carrying objects of the new
listing.  (The recorded versions play no part.) -/
theorem identity_change_detected (w : World) (st : AggregatorState)
    (pre post : List ConfigMap) (added : ConfigMap)
    (hrecorded : ∀ n, n ∈ st.lastConfigMapNames ↔
      ∃ cm ∈ pre ++ post, HasPrefix cm.Name configMapPrefix = true ∧ cm.Name = n)
    (hcarries : HasPrefix added.Name configMapPrefix = true)
    (hnew : ∀ cm ∈ pre ++ post, cm.Name ≠ added.Name)
    (hlist : w.listConfigMaps namespaceName = .ok (pre ++ added :: post)) :
    nameChanged (scan (pre ++ added :: post)).currentNames st.lastConfigMapNames = true ∧
    (processConfigMaps w st).publish =
      some (writeConfigMapsToSharedVolume w
        ((pre ++ added :: post).filter (fun cm => HasPrefix cm.Name configMapPrefix))) := by
  have hname :
      nameChanged (scan (pre ++ added :: post)).currentNames st.lastConfigMapNames = true := by
    rw [nameChanged_eq_true_iff]
    intro hall
    have hcur : added.Name ∈ (scan (pre ++ added :: post)).currentNames :=
      (mem_currentNames _ _).2 ⟨added, by simp, hcarries, rfl⟩
    obtain ⟨cm, hcm, -, hcmn⟩ := (hrecorded _).1 ((hall _).1 hcur)
    exact hnew cm hcm hcmn
  refine ⟨hname, ?_⟩
  apply publish_of_changed w st _ hlist
  rw [hname]
  rfl

/-- The scenario of C6: the state records `[cmA]` and the listing is `[cmA, cmB]`. -/
theorem identity_change_detected_witness :
    nameChanged (scan ([cmA] ++ cmB :: [])).currentNames stateAfterA.lastConfigMapNames = true ∧
    (processConfigMaps (clusterWith (.ok [cmA, cmB]) (.ok ())) stateAfterA).publish =
      some (writeConfigMapsToSharedVolume (clusterWith (.ok [cmA, cmB]) (.ok ()))
        (([cmA] ++ cmB :: []).filter (fun cm => HasPrefix cm.Name configMapPrefix))) :=
  identity_change_detected (clusterWith (.ok [cmA, cmB]) (.ok ())) stateAfterA [cmA] [] cmB
    (fun n => by simpa using stateAfterA_names n) (by decide)
    (fun cm hcm => by
      have hcm : cm = cmA := by simpa using hcm
      subst hcm
      decide)
    rfl

/-- C7 (content-change detection): when the recorded names are exactly the names of the
prefix-carrying objects of the listing, no two of those objects share a name, and one of them
has a version token different from the version recorded for its name, the identity check stays
silent, the content check flags a change, and the cycle calls the publish on the
prefix-carrying objects of the listing. -/
theorem content_change_detected (w : World) (st : AggregatorState) (items : List ConfigMap)
    (cm : ConfigMap) (recorded : String)
    (hnames : ∀ n, n ∈ st.lastConfigMapNames ↔
      ∃ c ∈ items, HasPrefix c.Name configMapPrefix = true ∧ c.Name = n)
    (hdistinct : ((items.filter (fun c => HasPrefix c.Name configMapPrefix)).map
      (fun c => c.Name)).Nodup)
    (hcm : cm ∈ items) (hcarries : HasPrefix cm.Name configMapPrefix = true)
    (hrecorded : st.lastConfigMapVersions.lookup cm.Name = some recorded)
    (hdiffers : recorded ≠ cm.ResourceVersion)
    (hlist : w.listConfigMaps namespaceName = .ok items) :
    nameChanged (scan items).currentNames st.lastConfigMapNames = false ∧
    contentChanged false (scan items).currentVersions st.lastConfigMapVersions = true ∧
    (processConfigMaps w st).publish =
      some (writeConfigMapsToSharedVolume w
        (items.filter (fun c => HasPrefix c.Name configMapPrefix))) := by
  have hname : nameChanged (scan items).currentNames st.lastConfigMapNames = false := by
    rw [nameChanged_eq_false_iff]
    intro n
    rw [mem_currentNames, hnames]
  have hcontent :
      contentChanged false (scan items).currentVersions st.lastConfigMapVersions = true := by
    cases h : contentChanged false (scan items).currentVersions st.lastConfigMapVersions with
    | true => rfl
    | false =>
      exfalso
      have hall := (contentChanged_eq_false_iff _ _).1 h
      have hcur := lookup_currentVersions items hdistinct cm hcm hcarries
      have := hall _ _ hcur
      rw [GoMap.getD, hrecorded] at this
      exact hdiffers this
  refine ⟨hname, hcontent, ?_⟩
  apply publish_of_changed w st _ hlist
  rw [hname, hcontent]
  rfl

/-- The scenario of C7: the state records `cmA` at version 1 and the listing holds it at
version 2. -/
theorem content_change_detected_witness :
    nameChanged (scan [cmA2]).currentNames stateAfterA.lastConfigMapNames = false ∧
    contentChanged false (scan [cmA2]).currentVersions stateAfterA.lastConfigMapVersions =
      true ∧
    (processConfigMaps (clusterWith (.ok [cmA2]) (.ok ())) stateAfterA).publish =
      some (writeConfigMapsToSharedVolume (clusterWith (.ok [cmA2]) (.ok ()))
        ([cmA2].filter (fun c => HasPrefix c.Name configMapPrefix))) :=
  content_change_detected (clusterWith (.ok [cmA2]) (.ok ())) stateAfterA [cmA2] cmA2 "1"
    (fun n => by
      rw [stateAfterA_names n]
      simp [cmA, cmA2])
    (by decide) (by simp) (by decide) rfl (by decide) rfl

/-- C8 (atomicity on failure): a failing listing call makes the cycle return an error with the
state untouched and no publish call; a flagged change whose publish fails makes it return an
error with the state untouched, and the next cycle on the same listing flags a change again
and calls the publish again; whenever the cycle returns an error the state is untouched; the
state is replaced only by a cycle whose publish succeeded, and such a cycle returns no error
and leaves exactly `currentNames` and `currentVersions` as the state. -/
theorem processConfigMaps_atomic (w : World) (st : AggregatorState) :
    (∀ e, w.listConfigMaps namespaceName = .error e →
      (processConfigMaps w st).err ≠ none ∧ (processConfigMaps w st).state = st ∧
        (processConfigMaps w st).publish = none) ∧
    (∀ items e, w.listConfigMaps namespaceName = .ok items →
      (nameChanged (scan items).currentNames st.lastConfigMapNames ||
        contentChanged (nameChanged (scan items).currentNames st.lastConfigMapNames)
          (scan items).currentVersions st.lastConfigMapVersions) = true →
      writeConfigMapsToSharedVolume w (scan items).scopedConfigMaps = .error e →
      (processConfigMaps w st).err ≠ none ∧ (processConfigMaps w st).state = st ∧
        (processConfigMaps w st).publish = some (.error e) ∧
        ∀ w₂ : World, w₂.listConfigMaps namespaceName = .ok items →
          (nameChanged (scan items).currentNames
              (processConfigMaps w st).state.lastConfigMapNames ||
            contentChanged
              (nameChanged (scan items).currentNames
                (processConfigMaps w st).state.lastConfigMapNames)
              (scan items).currentVersions
              (processConfigMaps w st).state.lastConfigMapVersions) = true ∧
          (processConfigMaps w₂ (processConfigMaps w st).state).publish =
            some (writeConfigMapsToSharedVolume w₂
              (items.filter (fun cm => HasPrefix cm.Name configMapPrefix)))) ∧
    ((processConfigMaps w st).err ≠ none → (processConfigMaps w st).state = st) ∧
    ((processConfigMaps w st).state ≠ st → (processConfigMaps w st).publish = some (.ok ())) ∧
    ((processConfigMaps w st).publish = some (.ok ()) →
      (processConfigMaps w st).err = none ∧
        ∃ items, w.listConfigMaps namespaceName = .ok items ∧
          (processConfigMaps w st).state =
            ⟨(scan items).currentNames, (scan items).currentVersions⟩) := by
  refine ⟨?_, ?_, ?_⟩
  · intro e hlist
    rw [processConfigMaps_list_failed w st e hlist]
    simp
  · intro items e hlist hchanged hwrite
    rw [processConfigMaps_changed_failed w st items e hlist hchanged hwrite]
    refine ⟨by simp, rfl, rfl, ?_⟩
    intro w₂ hlist₂
    exact ⟨hchanged, publish_of_changed w₂ st items hlist₂ hchanged⟩
  · cases hlist : w.listConfigMaps namespaceName with
    | error e =>
      rw [processConfigMaps_list_failed w st e hlist]
      simp
    | ok items =>
      by_cases hchanged :
          (nameChanged (scan items).currentNames st.lastConfigMapNames ||
            contentChanged (nameChanged (scan items).currentNames st.lastConfigMapNames)
              (scan items).currentVersions st.lastConfigMapVersions) = true
      · cases hwrite : writeConfigMapsToSharedVolume w (scan items).scopedConfigMaps with
        | error e =>
          rw [processConfigMaps_changed_failed w st items e hlist hchanged hwrite]
          simp
        | ok u =>
          rw [processConfigMaps_changed_written w st items hlist hchanged hwrite]
          simp
      · have hname : nameChanged (scan items).currentNames st.lastConfigMapNames = false := by
          cases h : nameChanged (scan items).currentNames st.lastConfigMapNames with
          | false => rfl
          | true => simp [h] at hchanged
        have hcontent :
            contentChanged false (scan items).currentVersions st.lastConfigMapVersions =
              false := by
          rw [hname] at hchanged
          simpa using hchanged
        rw [processConfigMaps_unchanged w st items hlist hname hcontent]
        simp

/-- The scenario of C8: the listing `[cmA, cmB]` reaches a monitor in its initial state and the
final rename fails; the cycle returns an error, keeps the initial state, and the next cycle,
whose rename succeeds, publishes. -/
theorem processConfigMaps_atomic_witness :
    (processConfigMaps (clusterWith (.ok [cmA, cmB]) (.error "read-only file system"))
      initialState).err ≠ none ∧
    (processConfigMaps (clusterWith (.ok [cmA, cmB]) (.error "read-only file system"))
      initialState).state = initialState ∧
    (processConfigMaps (clusterWith (.ok [cmA, cmB]) (.ok ()))
      (processConfigMaps (clusterWith (.ok [cmA, cmB]) (.error "read-only file system"))
        initialState).state).publish =
      some (writeConfigMapsToSharedVolume (clusterWith (.ok [cmA, cmB]) (.ok ()))
        ([cmA, cmB].filter (fun cm => HasPrefix cm.Name configMapPrefix))) :=
  have h := (processConfigMaps_atomic
    (clusterWith (.ok [cmA, cmB]) (.error "read-only file system")) initialState).2.1
    [cmA, cmB]
    ("failed to write config to shared volume: " ++
      ("failed to rename temp file to final file: " ++ "read-only file system"))
    rfl (by decide) rfl
  ⟨h.1, h.2.1, (h.2.2.2 (clusterWith (.ok [cmA, cmB]) (.ok ())) rfl).2⟩

/-- C9 fails on the code: on the first cycle (initial state) with a listing that holds no
ConfigMap carrying the prefix, and with every file operation succeeding, `processConfigMaps`
returns `nil` without calling `writeConfigMapsToSharedVolume`, although that call would have
succeeded; the same holds for the empty listing.  A listing with a prefix-carrying object is
published on the first cycle. -/
theorem first_cycle_without_scoped_configmap :
    (processConfigMaps (clusterWith (.ok [cmOther]) (.ok ())) initialState).publish = none ∧
    (processConfigMaps (clusterWith (.ok [cmOther]) (.ok ())) initialState).err = none ∧
    writeConfigMapsToSharedVolume (clusterWith (.ok [cmOther]) (.ok ()))
      ([cmOther].filter (fun cm => HasPrefix cm.Name configMapPrefix)) = .ok () ∧
    (processConfigMaps (clusterWith (.ok []) (.ok ())) initialState).publish = none ∧
    (processConfigMaps (clusterWith (.ok [cmOther, cmA]) (.ok ())) initialState).publish =
      some (.ok ()) :=
  ⟨rfl, rfl, rfl, rfl, rfl⟩

/-- C10 (the identity check is complete): for a listing the store returns, the identity check
flags a change exactly when the set of names of the prefix-carrying objects differs from the
set of keys of `lastConfigMapNames`, and whenever it differs the cycle calls the publish on the
prefix-carrying objects; in particular so does a removal-only change, and so does an addition
with a simultaneous removal that keeps the count equal. -/
theorem nameChanged_complete (w : World) (st : AggregatorState) (items : List ConfigMap)
    (hlist : w.listConfigMaps namespaceName = .ok items) :
    (nameChanged (scan items).currentNames st.lastConfigMapNames = true ↔
      ¬ ∀ n, (∃ cm ∈ items, HasPrefix cm.Name configMapPrefix = true ∧ cm.Name = n) ↔
        n ∈ st.lastConfigMapNames) ∧
    ((¬ ∀ n, (∃ cm ∈ items, HasPrefix cm.Name configMapPrefix = true ∧ cm.Name = n) ↔
        n ∈ st.lastConfigMapNames) →
      (processConfigMaps w st).publish =
        some (writeConfigMapsToSharedVolume w
          (items.filter (fun cm => HasPrefix cm.Name configMapPrefix)))) ∧
    ((∀ n, (∃ cm ∈ items, HasPrefix cm.Name configMapPrefix = true ∧ cm.Name = n) →
        n ∈ st.lastConfigMapNames) →
      (∃ n, n ∈ st.lastConfigMapNames ∧
        ¬ ∃ cm ∈ items, HasPrefix cm.Name configMapPrefix = true ∧ cm.Name = n) →
      nameChanged (scan items).currentNames st.lastConfigMapNames = true ∧
      (processConfigMaps w st).publish =
        some (writeConfigMapsToSharedVolume w
          (items.filter (fun cm => HasPrefix cm.Name configMapPrefix)))) ∧
    ((scan items).currentNames.len = st.lastConfigMapNames.len →
      (∃ n, (∃ cm ∈ items, HasPrefix cm.Name configMapPrefix = true ∧ cm.Name = n) ∧
        n ∉ st.lastConfigMapNames) →
      (∃ n, n ∈ st.lastConfigMapNames ∧
        ¬ ∃ cm ∈ items, HasPrefix cm.Name configMapPrefix = true ∧ cm.Name = n) →
      nameChanged (scan items).currentNames st.lastConfigMapNames = true ∧
      (processConfigMaps w st).publish =
        some (writeConfigMapsToSharedVolume w
          (items.filter (fun cm => HasPrefix cm.Name configMapPrefix)))) := by
  have hiff : nameChanged (scan items).currentNames st.lastConfigMapNames = true ↔
      ¬ ∀ n, (∃ cm ∈ items, HasPrefix cm.Name configMapPrefix = true ∧ cm.Name = n) ↔
        n ∈ st.lastConfigMapNames := by
    rw [nameChanged_eq_true_iff]
    simp only [mem_currentNames]
  have hpub : nameChanged (scan items).currentNames st.lastConfigMapNames = true →
      (processConfigMaps w st).publish =
        some (writeConfigMapsToSharedVolume w
          (items.filter (fun cm => HasPrefix cm.Name configMapPrefix))) := by
    intro hname
    apply publish_of_changed w st _ hlist
    rw [hname]
    rfl
  refine ⟨hiff, fun hdiff => hpub (hiff.2 hdiff), ?_, ?_⟩
  · rintro - ⟨n, hlast, hcur⟩
    have hname := hiff.2 (fun hall => hcur ((hall n).2 hlast))
    exact ⟨hname, hpub hname⟩
  · rintro - ⟨n, hcur, hlast⟩ -
    have hname := hiff.2 (fun hall => hlast ((hall n).1 hcur))
    exact ⟨hname, hpub hname⟩

/-- The scenario of C10: the state records `scoped-config-a`, the listing holds only
`scoped-config-b` (one name added, one removed, the count unchanged), and the cycle calls the
publish. -/
theorem nameChanged_complete_witness :
    nameChanged (scan [cmB]).currentNames stateAfterA.lastConfigMapNames = true ∧
    (processConfigMaps (clusterWith (.ok [cmB]) (.ok ())) stateAfterA).publish =
      some (writeConfigMapsToSharedVolume (clusterWith (.ok [cmB]) (.ok ()))
        ([cmB].filter (fun cm => HasPrefix cm.Name configMapPrefix))) :=
  (nameChanged_complete (clusterWith (.ok [cmB]) (.ok ())) stateAfterA [cmB] rfl).2.2.2
    (by decide)
    ⟨"scoped-config-b", ⟨cmB, by simp, by decide, rfl⟩, by decide⟩
    ⟨"scoped-config-a", by decide, by
      rintro ⟨cm, hcm, -, hn⟩
      have hcm : cm = cmB := by simpa using hcm
      subst hcm
      exact absurd hn (by decide)⟩

end monitor

end Ratify
